import Mathlib

/-!
Verification of the `rugix-isolator` core (`crates/libs/rugix-isolator/src/lib.rs`).

The pure string manipulation of the source (`make_identity_map`, `parse_subid_file`,
`is_single_threaded`) is embedded directly as executable functions over character
lists.  The effectful parts (`isolate`, `parent_run`, `write_maps`,
`write_maps_with_helpers`, `child_setup`, `wait_for_child`) are embedded as
functions over an explicit world of syscall outcomes; each embedded function
returns the ordered list of observable actions it performs together with its
result.  Error values are modeled as an inductive type with one constructor per
distinct `IsolateError::new` message site of the source.
-/

namespace RugixIsolator

/-! ## Rust string primitives, over character lists -/

/-- Finish a line accumulated in reverse order when a newline terminator is hit:
a carriage return immediately preceding the newline is stripped
(Rust `str::lines` treats `\r\n` as a line terminator). -/
def finishLine (cur : List Char) : List Char :=
  if cur.head? = some '\r' then cur.tail.reverse else cur.reverse

/-- Worker for `rustLines`; `cur` is the current line accumulated in reverse. -/
def rustLinesAux (cur : List Char) : List Char → List (List Char)
  | [] => if cur.isEmpty then [] else [cur.reverse]
  | c :: rest =>
    if c = '\n' then finishLine cur :: rustLinesAux [] rest
    else rustLinesAux (c :: cur) rest

/-- Rust `str::lines`: split at `\n` (stripping a preceding `\r`); a final
fragment without a terminating newline is kept, and a trailing newline does not
produce an extra empty line. -/
def rustLines (s : List Char) : List (List Char) :=
  rustLinesAux [] s

/-- Worker for `splitWhitespace`; `cur` is the current word in reverse. -/
def splitWsAux (cur : List Char) : List Char → List (List Char)
  | [] => if cur.isEmpty then [] else [cur.reverse]
  | c :: rest =>
    if c.isWhitespace then
      if cur.isEmpty then splitWsAux [] rest
      else cur.reverse :: splitWsAux [] rest
    else splitWsAux (c :: cur) rest

/-- Rust `str::split_whitespace`: the maximal runs of non-whitespace characters. -/
def splitWhitespace (s : List Char) : List (List Char) :=
  splitWsAux [] s

/-- Rust `str::split` with a single-character separator: empty pieces are kept,
and the empty string yields one empty piece. -/
def splitOnChar (sep : Char) : List Char → List (List Char)
  | [] => [[]]
  | c :: rest =>
    if c = sep then [] :: splitOnChar sep rest
    else
      match splitOnChar sep rest with
      | [] => [[c]]
      | p :: ps => (c :: p) :: ps

/-- Rust `str::trim`: remove leading and trailing whitespace. -/
def trimChars (s : List Char) : List Char :=
  ((s.dropWhile Char.isWhitespace).reverse.dropWhile Char.isWhitespace).reverse

/-- Rust `str::parse::<u32>()`: an optional leading plus sign followed by one or
more decimal digits, rejecting values that do not fit in 32 bits. -/
def parseU32 (s : List Char) : Option Nat :=
  let digits := match s with
    | '+' :: rest => rest
    | other => other
  if digits.isEmpty then none
  else if digits.all Char.isDigit then
    let n := digits.foldl (fun acc c => acc * 10 + (c.toNat - 48)) 0
    if n < 4294967296 then some n else none
  else none

/-- Rust `str::strip_prefix`: the remainder of `s` after the pattern `p`, when
`s` starts with `p`. -/
def stripLeading : List Char → List Char → Option (List Char)
  | [], s => some s
  | _ :: _, [] => none
  | p :: ps, c :: cs => if c = p then stripLeading ps cs else none

/-! ## `make_identity_map` -/

/-- Loop body of `make_identity_map`: the first whitespace-separated field of the
line is the container-side ID, the second (parent-side) field is skipped, the
third is the count; lines with fewer than three fields are skipped. -/
def identityStep (result : List Char) (line : List Char) : List Char :=
  match splitWhitespace line with
  | container_id :: _ :: count :: _ =>
    result ++ container_id ++ [' '] ++ container_id ++ [' '] ++ count ++ ['\n']
  | _ => result

/-- Function `make_identity_map`: convert a `uid_map`/`gid_map` to an identity mapping,
falling back to `0 0 1` when the result is empty. -/
def make_identity_map (map : String) : String :=
  let result := (rustLines map.data).foldl identityStep []
  if result.isEmpty then "0 0 1\n" else String.mk result

/-! ## `parse_subid_file` -/

/-- A subordinate ID range from `/etc/subuid` or `/etc/subgid`. -/
structure SubIdRange where
  start : Nat
  count : Nat
deriving DecidableEq

/-- Loop body of `parse_subid_file`: split the line on colons, require the
trimmed first field to equal the username, then require the trimmed second and
third fields to parse as `u32`; `none` corresponds to `continue` in the source. -/
def parse_subid_line (username : List Char) (line : List Char) : Option SubIdRange :=
  match splitOnChar ':' line with
  | [] => none
  | first :: rest =>
    if trimChars first ≠ username then none
    else
      match rest with
      | [] => none
      | startField :: rest2 =>
        match parseU32 (trimChars startField) with
        | none => none
        | some s =>
          match rest2 with
          | [] => none
          | countField :: _ =>
            match parseU32 (trimChars countField) with
            | none => none
            | some c => some ⟨s, c⟩

/-- The scan of `parse_subid_file` over the lines of the file: the first line on
which `parse_subid_line` succeeds wins. -/
def subidSearch (username : List Char) : List (List Char) → Option SubIdRange
  | [] => none
  | line :: rest =>
    match parse_subid_line username line with
    | some r => some r
    | none => subidSearch username rest

/-- Function `parse_subid_file`: find the subordinate ID range for a user.  The
`read_to_string` of the path is abstracted by passing the file content directly;
the I/O error of the read is handled at the call sites (`HelperWorld`). -/
def parse_subid_file (content : String) (username : String) : Option SubIdRange :=
  subidSearch username.data (rustLines content.data)

/-! ## `is_single_threaded` -/

/-- The scan of `is_single_threaded` over the lines of `/proc/self/status`:
on the first line starting with `Threads:` the function returns immediately,
with `none` when the count does not parse (the `?` on `parse` in the source). -/
def threadsSearch : List (List Char) → Option Bool
  | [] => none
  | line :: rest =>
    match stripLeading ("Threads:".data) line with
    | some count_str =>
      match parseU32 (trimChars count_str) with
      | some count => some (count = 1)
      | none => none
    | none => threadsSearch rest

/-- Function `is_single_threaded`: check whether the process has exactly one thread.  The
`read_to_string("/proc/self/status")` is abstracted by an optional content,
`none` standing for a failed read (the `.ok()?` of the source). -/
def is_single_threaded (statusContent : Option String) : Option Bool :=
  match statusContent with
  | none => none
  | some status => threadsSearch (rustLines status.data)

/-! ## Constants

Numeric values of the Linux constants used by the source. -/

def MS_BIND : Nat := 4096

def MS_REC : Nat := 16384

def MS_PRIVATE : Nat := 262144

def CLONE_NEWUSER : Nat := 268435456

def CLONE_NEWNS : Nat := 131072

def CLONE_NEWPID : Nat := 536870912

def SIGCHLD : Nat := 17

def SIGKILL : Nat := 9

def EPERM : Int := 1

/-! ## Errors

One constructor per distinct `IsolateError::new` message site of the source;
the `source` cause chain of the Rust error value is not modeled. -/

/-- Which of the two parent map files a read error refers to. -/
inductive MapKind where
  | uid
  | gid
deriving DecidableEq

/-- The errors of the isolator, one constructor per message site. -/
inductive IsolateError where
  | multiThreaded
  | threadCountUnknown
  | parentMapReadFailed (kind : MapKind)
  | pipeCreationFailed
  | cloneFailed
  | mapWriteFailed (path : String)
  | usernameLookupFailed (uid : Nat)
  | subidParseFailed (path : String)
  | subidEntryMissing (path : String) (uid : Nat)
  | helperInvocationFailed (name : String)
  | helperExitNonzero (name : String) (code : Int)
  | barrierWaitFailed
  | mountPrivateFailed
  | invalidSourcePath (path : String)
  | invalidDestinationPath (path : String)
  | bindMountFailed (src : String) (dst : String)
  | chrootFailed (path : String)
  | chdirFailed
deriving DecidableEq

/-! ## Observable actions

The ordered trace of externally observable operations an embedded function
performs. -/

/-- Observable actions of the isolator. -/
inductive Action where
  | readStatus
  | readParentUidMap
  | readParentGidMap
  | createPipe
  | clone (flags : Nat)
  | openPidfd
  | writeUidMap (pid : Nat) (content : String)
  | writeGidMap (pid : Nat) (content : String)
  | execHelper (name : String) (args : List String)
  | kill (pid : Nat) (sig : Nat)
  | waitChild (pid : Nat)
  | installHandlers
  | closeWriteEnd
  | barrierRead
  | mountPrivate
  | bindMount (src : String) (dst : String) (flags : Nat)
  | chroot (path : String)
  | chdir (path : String)
deriving DecidableEq

/-! ## Configuration -/

/-- A bind mount to set up in the isolated child. -/
structure BindMount where
  src : String
  dst : String
  recursive : Bool
deriving DecidableEq

/-- Isolator configuration (builder-style in the source). -/
structure Isolator where
  bind_mounts : List BindMount
  chroot_path : Option String
  new_pid_namespace : Bool
deriving DecidableEq

/-- Builder `Isolator::new`. -/
def Isolator.new : Isolator :=
  { bind_mounts := [], chroot_path := none, new_pid_namespace := false }

/-- Builder `Isolator::with_bind_mount`. -/
def Isolator.with_bind_mount (self : Isolator) (src dst : String) : Isolator :=
  { self with bind_mounts := self.bind_mounts ++ [⟨src, dst, false⟩] }

/-- Builder `Isolator::with_recursive_bind_mount`. -/
def Isolator.with_recursive_bind_mount (self : Isolator) (src dst : String) : Isolator :=
  { self with bind_mounts := self.bind_mounts ++ [⟨src, dst, true⟩] }

/-- Builder `Isolator::with_chroot`. -/
def Isolator.with_chroot (self : Isolator) (path : String) : Isolator :=
  { self with chroot_path := some path }

/-- Builder `Isolator::with_new_pid_namespace`. -/
def Isolator.with_new_pid_namespace (self : Isolator) : Isolator :=
  { self with new_pid_namespace := true }

/-! ## `wait_for_child`

The `waitpid` loop is embedded over the list of successive `waitpid` outcomes
supplied by the world; the status decoding follows the glibc macros. -/

/-- One outcome of a `waitpid` call: an error, or a raw status word. -/
inductive WaitRes where
  | err
  | status (s : Nat)
deriving DecidableEq

/-- Child process exit reason. -/
inductive ChildExitReason where
  | exited (code : Nat)
  | signaled (sig : Nat)
deriving DecidableEq

/-- Result of the `wait_for_child` loop.  `pending` is a model artifact for a
world that never delivers a terminal status (the source loops forever). -/
inductive WaitResult where
  | reaped (r : ChildExitReason)
  | waitFailed
  | pending
deriving DecidableEq

/-- glibc `WTERMSIG`: the low seven bits of the status. -/
def wtermsig (s : Nat) : Nat := s % 128

/-- glibc `WIFEXITED`: the low seven bits are zero. -/
def wifexited (s : Nat) : Bool := s % 128 == 0

/-- glibc `WEXITSTATUS`: bits 8..15 of the status. -/
def wexitstatus (s : Nat) : Nat := s / 256 % 256

/-- glibc `WIFSIGNALED`: `((signed char) (((s & 0x7f) + 1) >> 1)) > 0`. -/
def wifsignaled (s : Nat) : Bool :=
  let x : Int := (s % 128 : Nat) + 1
  let sc : Int := if 128 ≤ x then x - 256 else x
  decide (0 < sc / 2)

/-- Function `wait_for_child`: loop on `waitpid` until the child exited or was signaled;
a `waitpid` error makes the parent exit with status 1 (`waitFailed` here). -/
def wait_for_child : List WaitRes → WaitResult
  | [] => .pending
  | WaitRes.err :: _ => .waitFailed
  | WaitRes.status s :: rest =>
    if wifexited s then .reaped (.exited (wexitstatus s))
    else if wifsignaled s then .reaped (.signaled (wtermsig s))
    else wait_for_child rest

/-! ## Map writing (parent side) -/

/-- Outcome of a `std::fs::write`: success, or an error with its
`raw_os_error()` value. -/
inductive FsWriteResult where
  | ok
  | error (errno : Option Int)
deriving DecidableEq

/-- Outcome of spawning and waiting on a helper command. -/
inductive HelperRunResult where
  | spawnError
  | exited (code : Int)
  | signaled
deriving DecidableEq

/-- Rust `ExitStatus::success()`. -/
def helperSuccess : HelperRunResult → Bool
  | .exited c => c == 0
  | _ => false

/-- The `status.code().unwrap_or(-1)` value used in the failure messages. -/
def helperFailCode : HelperRunResult → Int
  | .exited c => c
  | _ => -1

/-- World of the helper fallback path: the real IDs, the username lookup, the
contents of `/etc/subuid` and `/etc/subgid` (`none` = read error), and the two
helper invocations. -/
structure HelperWorld where
  realUid : Nat
  realGid : Nat
  username : Option String
  subuidContent : Option String
  subgidContent : Option String
  newuidmapRun : HelperRunResult
  newgidmapRun : HelperRunResult

/-- World of `write_maps`: the two direct `/proc` writes and the helper world. -/
structure MapsWorld where
  uidWrite : FsWriteResult
  gidWrite : FsWriteResult
  helper : HelperWorld

/-- The path `/proc/<child_pid>/uid_map`. -/
def uidMapPath (child_pid : Nat) : String :=
  "/proc/" ++ toString child_pid ++ "/uid_map"

/-- The path `/proc/<child_pid>/gid_map`. -/
def gidMapPath (child_pid : Nat) : String :=
  "/proc/" ++ toString child_pid ++ "/gid_map"

/-- Function `Isolator::write_maps_with_helpers`: resolve the username of the real UID,
parse `/etc/subuid` and `/etc/subgid` for that username and invoke `newuidmap`
and `newgidmap`; a spawn failure or a non-success exit status of either helper
is terminal. -/
def write_maps_with_helpers (child_pid : Nat) (w : HelperWorld) :
    List Action × Except IsolateError Unit :=
  match w.username with
  | none => ([], Except.error (.usernameLookupFailed w.realUid))
  | some username =>
    match w.subuidContent with
    | none => ([], Except.error (.subidParseFailed "/etc/subuid"))
    | some subuidContent =>
      match parse_subid_file subuidContent username with
      | none => ([], Except.error (.subidEntryMissing "/etc/subuid" w.realUid))
      | some subuid =>
        match w.subgidContent with
        | none => ([], Except.error (.subidParseFailed "/etc/subgid"))
        | some subgidContent =>
          match parse_subid_file subgidContent username with
          | none => ([], Except.error (.subidEntryMissing "/etc/subgid" w.realUid))
          | some subgid =>
            let uidAct := Action.execHelper "newuidmap"
              [toString child_pid, "0", toString w.realUid, "1", "1",
               toString subuid.start, toString subuid.count]
            match w.newuidmapRun with
            | .spawnError => ([uidAct], Except.error (.helperInvocationFailed "newuidmap"))
            | uidRun =>
              if ¬ helperSuccess uidRun then
                ([uidAct], Except.error (.helperExitNonzero "newuidmap" (helperFailCode uidRun)))
              else
                let gidAct := Action.execHelper "newgidmap"
                  [toString child_pid, "0", toString w.realGid, "1", "1",
                   toString subgid.start, toString subgid.count]
                match w.newgidmapRun with
                | .spawnError => ([uidAct, gidAct],
                    Except.error (.helperInvocationFailed "newgidmap"))
                | gidRun =>
                  if ¬ helperSuccess gidRun then
                    ([uidAct, gidAct],
                     Except.error (.helperExitNonzero "newgidmap" (helperFailCode gidRun)))
                  else ([uidAct, gidAct], Except.ok ())

/-- Function `Isolator::write_maps`: write the identity `uid_map`; on an `EPERM` failure
fall back to the helpers, on any other failure fail; on success write the
identity `gid_map`, any failure of which is terminal. -/
def write_maps (child_pid : Nat) (parent_uid_map parent_gid_map : String) (w : MapsWorld) :
    List Action × Except IsolateError Unit :=
  let uid_map := make_identity_map parent_uid_map
  let uidAct := Action.writeUidMap child_pid uid_map
  match w.uidWrite with
  | .error errno =>
    if errno = some EPERM then
      (uidAct :: (write_maps_with_helpers child_pid w.helper).1,
       (write_maps_with_helpers child_pid w.helper).2)
    else ([uidAct], Except.error (.mapWriteFailed (uidMapPath child_pid)))
  | .ok =>
    let gid_map := make_identity_map parent_gid_map
    let gidAct := Action.writeGidMap child_pid gid_map
    match w.gidWrite with
    | .ok => ([uidAct, gidAct], Except.ok ())
    | .error _ => ([uidAct, gidAct], Except.error (.mapWriteFailed (gidMapPath child_pid)))

/-! ## Child setup -/

/-- World of the child side: the one-byte barrier read (`Except` errno of bytes
read, `0` = end of file), the `MS_PRIVATE` remount, the success of the `i`-th
attempted bind mount, and the chroot/chdir calls. -/
structure ChildWorld where
  readResult : Except Int Nat
  mountPrivateOk : Bool
  bindOk : Nat → Bool
  chrootOk : Bool
  chdirOk : Bool

/-- The bind-mount loop of `child_setup` with `Isolator::setup_bind_mount`
inlined: a NUL byte in either path fails `CString::new`; otherwise the mount is
attempted with `MS_BIND`, or-ed with `MS_REC` when the mount is recursive, and a
mount failure is terminal, reporting the offending pair. -/
def setup_bind_mounts (bms : List BindMount) (ok : Nat → Bool) (i : Nat) :
    List Action × Except IsolateError Unit :=
  match bms with
  | [] => ([], Except.ok ())
  | bm :: rest =>
    if bm.src.data.contains '\x00' then ([], Except.error (.invalidSourcePath bm.src))
    else if bm.dst.data.contains '\x00' then
      ([], Except.error (.invalidDestinationPath bm.dst))
    else
      let flags := MS_BIND ||| (if bm.recursive then MS_REC else 0)
      if ok i then
        (Action.bindMount bm.src bm.dst flags :: (setup_bind_mounts rest ok (i + 1)).1,
         (setup_bind_mounts rest ok (i + 1)).2)
      else
        ([Action.bindMount bm.src bm.dst flags],
         Except.error (.bindMountFailed bm.src bm.dst))

/-- Function `Isolator::child_setup`: block on the barrier read (any `read` error is
terminal, a successful read of any byte count proceeds), make `/` recursively
private, apply the bind mounts in configuration order, then chroot and chdir to
`/` when a chroot path is configured. -/
def child_setup (cfg : Isolator) (w : ChildWorld) : List Action × Except IsolateError Unit :=
  match w.readResult with
  | Except.error _ => ([Action.barrierRead], Except.error .barrierWaitFailed)
  | Except.ok _ =>
    if ¬ w.mountPrivateOk then
      ([Action.barrierRead, Action.mountPrivate], Except.error .mountPrivateFailed)
    else
      let acts := (setup_bind_mounts cfg.bind_mounts w.bindOk 0).1
      match (setup_bind_mounts cfg.bind_mounts w.bindOk 0).2 with
      | Except.error e =>
        (Action.barrierRead :: Action.mountPrivate :: acts, Except.error e)
      | Except.ok _ =>
        match cfg.chroot_path with
        | none => (Action.barrierRead :: Action.mountPrivate :: acts, Except.ok ())
        | some p =>
          if ¬ w.chrootOk then
            (Action.barrierRead :: Action.mountPrivate :: acts ++ [Action.chroot p],
             Except.error (.chrootFailed p))
          else if ¬ w.chdirOk then
            (Action.barrierRead :: Action.mountPrivate :: acts ++
               [Action.chroot p, Action.chdir "/"],
             Except.error .chdirFailed)
          else
            (Action.barrierRead :: Action.mountPrivate :: acts ++
               [Action.chroot p, Action.chdir "/"],
             Except.ok ())

/-! ## Parent supervisor -/

/-- World of the parent side: the `pidfd_open`, the map-writing world, the
`SIGKILL` on the cleanup path, and the `waitpid` outcomes on the cleanup path
and on the final wait. -/
structure ParentWorld where
  pidfdOk : Bool
  maps : MapsWorld
  killOk : Bool
  waitAfterKill : List WaitRes
  waitFinal : List WaitRes

/-- Overall outcome of `isolate`: `retOkChild` is `Ok(())` returned in the
child; `errChild`/`errParent`/`errNoChild` are `Err` returns in the child, in
the parent after a successful clone, and before any child exists;
`exitProcess` is a `std::process::exit`; `pending` is the model artifact of a
never-terminating wait. -/
inductive Outcome where
  | retOkChild
  | errChild (e : IsolateError)
  | errParent (e : IsolateError)
  | errNoChild (e : IsolateError)
  | exitProcess (code : Nat)
  | pending
deriving DecidableEq

/-- Function `Isolator::parent_run`: open a pidfd (failure exits with status 1), write
the maps (on failure: `SIGKILL` the child — a kill failure exits with status 1 —
wait for it and surface the map error), install the signal-forwarding handlers,
release the child by closing the pipe's write end, and wait, exiting with the
child's code or with `128 + signal`. -/
def parent_run (child_pid : Nat) (parent_uid_map parent_gid_map : String) (w : ParentWorld) :
    List Action × Outcome :=
  if ¬ w.pidfdOk then ([Action.openPidfd], .exitProcess 1)
  else
    let acts := (write_maps child_pid parent_uid_map parent_gid_map w.maps).1
    match (write_maps child_pid parent_uid_map parent_gid_map w.maps).2 with
    | Except.error e =>
      if ¬ w.killOk then
        (Action.openPidfd :: acts ++ [Action.kill child_pid SIGKILL], .exitProcess 1)
      else
        let trace := Action.openPidfd :: acts ++
          [Action.kill child_pid SIGKILL, Action.waitChild child_pid]
        match wait_for_child w.waitAfterKill with
        | .waitFailed => (trace, .exitProcess 1)
        | .pending => (trace, .pending)
        | .reaped _ => (trace, .errParent e)
    | Except.ok _ =>
      let trace := Action.openPidfd :: acts ++
        [Action.installHandlers, Action.closeWriteEnd, Action.waitChild child_pid]
      match wait_for_child w.waitFinal with
      | .reaped (.exited code) => (trace, .exitProcess code)
      | .reaped (.signaled sig) => (trace, .exitProcess (128 + sig))
      | .waitFailed => (trace, .exitProcess 1)
      | .pending => (trace, .pending)

/-! ## `isolate` -/

/-- World of a whole `isolate` call. -/
structure IsolateWorld where
  statusContent : Option String
  uidMapRead : Option String
  gidMapRead : Option String
  pipeOk : Bool
  cloneRet : Int
  parent : ParentWorld
  child : ChildWorld

/-- Function `Isolator::isolate`: check the single-thread precondition, read the parent's
own maps, create the barrier pipe, clone with
`CLONE_NEWUSER | CLONE_NEWNS | SIGCHLD` (plus `CLONE_NEWPID` when configured),
then continue as the child or as the parent supervisor. -/
def isolate (cfg : Isolator) (w : IsolateWorld) : List Action × Outcome :=
  match is_single_threaded w.statusContent with
  | some false => ([Action.readStatus], .errNoChild .multiThreaded)
  | none => ([Action.readStatus], .errNoChild .threadCountUnknown)
  | some true =>
    match w.uidMapRead with
    | none => ([Action.readStatus, Action.readParentUidMap],
               .errNoChild (.parentMapReadFailed .uid))
    | some parent_uid_map =>
      match w.gidMapRead with
      | none => ([Action.readStatus, Action.readParentUidMap, Action.readParentGidMap],
                 .errNoChild (.parentMapReadFailed .gid))
      | some parent_gid_map =>
        let pre := [Action.readStatus, Action.readParentUidMap, Action.readParentGidMap,
                    Action.createPipe]
        if ¬ w.pipeOk then (pre, .errNoChild .pipeCreationFailed)
        else
          let clone_flags := CLONE_NEWUSER ||| CLONE_NEWNS ||| SIGCHLD |||
            (if cfg.new_pid_namespace then CLONE_NEWPID else 0)
          let pre2 := pre ++ [Action.clone clone_flags]
          if w.cloneRet < 0 then (pre2, .errNoChild .cloneFailed)
          else if w.cloneRet = 0 then
            (pre2 ++ (child_setup cfg w.child).1,
             match (child_setup cfg w.child).2 with
             | Except.ok _ => .retOkChild
             | Except.error e => .errChild e)
          else
            (pre2 ++ (parent_run w.cloneRet.toNat parent_uid_map parent_gid_map w.parent).1,
             (parent_run w.cloneRet.toNat parent_uid_map parent_gid_map w.parent).2)

/-! ## Statement-level definitions -/

/-- A whitespace-free, nonempty field, as a decidable check on strings. -/
def tokenOk (s : String) : Bool :=
  !s.data.isEmpty && s.data.all (fun c => !c.isWhitespace)

/-- A whitespace-free, nonempty field, on character lists. -/
def TokChars (l : List Char) : Prop :=
  l ≠ [] ∧ ∀ c ∈ l, c.isWhitespace = false

/-- Render a `inside outside count` map line (without terminator). -/
def renderMapLine (t : String × String × String) : String :=
  t.1 ++ " " ++ t.2.1 ++ " " ++ t.2.2 ++ "\n"

/-- Render the corresponding `inside inside count` identity line. -/
def renderIdLine (t : String × String × String) : String :=
  t.1 ++ " " ++ t.1 ++ " " ++ t.2.2 ++ "\n"

/-- The character-level body of a three-field map line. -/
def lineBodyChars (t : List Char × List Char × List Char) : List Char :=
  t.1 ++ [' '] ++ t.2.1 ++ [' '] ++ t.2.2

/-- The contribution of one line to the identity map. -/
def lineOut (line : List Char) : List Char :=
  match splitWhitespace line with
  | a :: _ :: c :: _ => a ++ [' '] ++ a ++ [' '] ++ c ++ ['\n']
  | _ => []

/-- The container-side ID and count fields of a map line, when present. -/
def lineParsePair (line : List Char) : Option (List Char × List Char) :=
  match splitWhitespace line with
  | a :: _ :: c :: _ => some (a, c)
  | _ => none

/-! ## Sample worlds for concrete evaluations -/

/-- A helper world in which every lookup fails. -/
def helperWorldFail : HelperWorld :=
  ⟨1000, 1000, none, none, none, HelperRunResult.spawnError, HelperRunResult.spawnError⟩

/-- A helper world for the user `alice` with valid subordinate ranges. -/
def helperWorldAlice : HelperWorld :=
  ⟨1000, 1000, some "alice", some "alice:100000:65536\n", some "alice:200000:65536\n",
   HelperRunResult.exited 0, HelperRunResult.exited 0⟩

/-- A maps world whose `gid_map` write fails with `EPERM`. -/
def mapsWorldGidEperm : MapsWorld :=
  ⟨FsWriteResult.ok, FsWriteResult.error (some EPERM), helperWorldFail⟩

/-- A maps world whose `uid_map` write fails with `EACCES`. -/
def mapsWorldUidEacces : MapsWorld :=
  ⟨FsWriteResult.error (some 13), FsWriteResult.ok, helperWorldFail⟩

/-- A maps world in which both writes succeed. -/
def mapsWorldOk : MapsWorld :=
  ⟨FsWriteResult.ok, FsWriteResult.ok, helperWorldFail⟩

/-- A parent world whose map writing fails and whose child is then reaped. -/
def parentWorldMapFail : ParentWorld :=
  ⟨true, mapsWorldUidEacces, true, [WaitRes.status 9], []⟩

/-- A parent world whose child exits normally with code 5 (status `5 << 8`). -/
def parentWorldExit5 : ParentWorld :=
  ⟨true, mapsWorldOk, true, [], [WaitRes.status 1280]⟩

/-- A parent world whose child is killed by signal 15. -/
def parentWorldSig15 : ParentWorld :=
  ⟨true, mapsWorldOk, true, [], [WaitRes.status 15]⟩

/-- A child world in which every step succeeds and the barrier read hits EOF. -/
def childWorldOk : ChildWorld :=
  ⟨Except.ok 0, true, fun _ => true, true, true⟩

/-- An isolate world for a successful parent branch. -/
def isolateWorldParent : IsolateWorld :=
  ⟨some "Threads:\t1\n", some "0 0 4294967295\n", some "0 0 4294967295\n", true, 7,
   parentWorldExit5, childWorldOk⟩

/-- An isolate world whose process is multi-threaded. -/
def isolateWorldMulti : IsolateWorld :=
  ⟨some "Threads:\t2\n", none, none, true, 7, parentWorldExit5, childWorldOk⟩

/-- A sample configuration with two ordered bind mounts and a chroot. -/
def isolatorSample : Isolator :=
  ((Isolator.new.with_bind_mount "/a" "/x").with_recursive_bind_mount
    "/b" "/x/sub").with_chroot "/newroot"

end RugixIsolator

namespace RugixIsolator

/-! ## Theorems: map writing -/

/-- Claim C4: the helper fallback is taken exactly when the `uid_map` write
fails with `EPERM`; on a successful `uid_map` write the `gid_map` is written
directly and any failure of that write (whatever its errno, including `EPERM`)
is terminal without a fallback. -/
theorem write_maps_eperm_fallback (child_pid : Nat) (pum pgm : String) (w : MapsWorld) :
    (w.uidWrite = FsWriteResult.error (some EPERM) →
      write_maps child_pid pum pgm w =
        (Action.writeUidMap child_pid (make_identity_map pum) ::
           (write_maps_with_helpers child_pid w.helper).1,
         (write_maps_with_helpers child_pid w.helper).2)) ∧
    (∀ errno, w.uidWrite = FsWriteResult.error errno → errno ≠ some EPERM →
      write_maps child_pid pum pgm w =
        ([Action.writeUidMap child_pid (make_identity_map pum)],
         Except.error (IsolateError.mapWriteFailed (uidMapPath child_pid)))) ∧
    (w.uidWrite = FsWriteResult.ok →
      (write_maps child_pid pum pgm w).1 =
        [Action.writeUidMap child_pid (make_identity_map pum),
         Action.writeGidMap child_pid (make_identity_map pgm)] ∧
      (∀ errno, w.gidWrite = FsWriteResult.error errno →
        (write_maps child_pid pum pgm w).2 =
          Except.error (IsolateError.mapWriteFailed (gidMapPath child_pid))) ∧
      (w.gidWrite = FsWriteResult.ok →
        (write_maps child_pid pum pgm w).2 = Except.ok ())) := by
  refine ⟨?_, ?_, ?_⟩
  · intro hu
    simp [write_maps, hu]
  · intro errno hu hne
    simp [write_maps, hu, hne]
  · intro hu
    refine ⟨?_, ?_, ?_⟩
    · cases hg : w.gidWrite <;> simp [write_maps, hu, hg]
    · intro errno hg
      simp [write_maps, hu, hg]
    · intro hg
      simp [write_maps, hu, hg]

/-- Witness for C4: a concrete world where the `uid_map` write succeeds and the
`gid_map` write fails with `EPERM`, which is terminal. -/
theorem write_maps_eperm_fallback_witness :
    (write_maps 7 "" "" mapsWorldGidEperm).2 =
      Except.error (IsolateError.mapWriteFailed (gidMapPath 7)) :=
  ((write_maps_eperm_fallback 7 "" "" mapsWorldGidEperm).2.2 rfl).2.1 (some EPERM) rfl

/-- Claim C5: when map writing fails terminally, the parent kills the child
with `SIGKILL`, waits for it to be reaped, and only then surfaces the original
map-writing error (the returned error is the map-writing error itself). -/
theorem parent_run_reaps_child_on_map_failure (child_pid : Nat) (pum pgm : String)
    (w : ParentWorld) (e : IsolateError) (r : ChildExitReason) :
    w.pidfdOk = true →
    (write_maps child_pid pum pgm w.maps).2 = Except.error e →
    w.killOk = true →
    wait_for_child w.waitAfterKill = WaitResult.reaped r →
    (parent_run child_pid pum pgm w).2 = Outcome.errParent e ∧
    (parent_run child_pid pum pgm w).1 =
      Action.openPidfd :: (write_maps child_pid pum pgm w.maps).1 ++
        [Action.kill child_pid SIGKILL, Action.waitChild child_pid] := by
  intro hp hm hk hw
  simp [parent_run, hp, hm, hk, hw]

/-- Witness for C5 at a concrete failing world. -/
theorem parent_run_reaps_child_on_map_failure_witness :
    (parent_run 7 "" "" parentWorldMapFail).2 =
      Outcome.errParent (IsolateError.mapWriteFailed (uidMapPath 7)) :=
  (parent_run_reaps_child_on_map_failure 7 "" "" parentWorldMapFail
    (IsolateError.mapWriteFailed (uidMapPath 7)) (ChildExitReason.signaled 9)
    rfl rfl rfl rfl).1

/-- Claim C8: on the helper path, `newuidmap` is invoked with exactly
`<child_pid> 0 <real_uid> 1 1 <subuid.start> <subuid.count>` and `newgidmap`
with exactly `<child_pid> 0 <real_gid> 1 1 <subgid.start> <subgid.count>`, the
subordinate ranges being looked up by the real UID's username in `/etc/subuid`
and `/etc/subgid`; a non-zero exit status of either helper fails the step. -/
theorem write_maps_with_helpers_arguments (child_pid : Nat) (w : HelperWorld)
    (u suC sgC : String) (su sg : SubIdRange) :
    w.username = some u →
    w.subuidContent = some suC →
    parse_subid_file suC u = some su →
    w.subgidContent = some sgC →
    parse_subid_file sgC u = some sg →
    ((∀ c : Int, w.newuidmapRun = HelperRunResult.exited c → c ≠ 0 →
      write_maps_with_helpers child_pid w =
        ([Action.execHelper "newuidmap"
            [toString child_pid, "0", toString w.realUid, "1", "1",
             toString su.start, toString su.count]],
         Except.error (IsolateError.helperExitNonzero "newuidmap" c))) ∧
     (∀ c : Int, w.newuidmapRun = HelperRunResult.exited 0 →
      w.newgidmapRun = HelperRunResult.exited c → c ≠ 0 →
      write_maps_with_helpers child_pid w =
        ([Action.execHelper "newuidmap"
            [toString child_pid, "0", toString w.realUid, "1", "1",
             toString su.start, toString su.count],
          Action.execHelper "newgidmap"
            [toString child_pid, "0", toString w.realGid, "1", "1",
             toString sg.start, toString sg.count]],
         Except.error (IsolateError.helperExitNonzero "newgidmap" c))) ∧
     (w.newuidmapRun = HelperRunResult.exited 0 → w.newgidmapRun = HelperRunResult.exited 0 →
      write_maps_with_helpers child_pid w =
        ([Action.execHelper "newuidmap"
            [toString child_pid, "0", toString w.realUid, "1", "1",
             toString su.start, toString su.count],
          Action.execHelper "newgidmap"
            [toString child_pid, "0", toString w.realGid, "1", "1",
             toString sg.start, toString sg.count]],
         Except.ok ()))) := by
  intro hu hsuC hsu hsgC hsg
  refine ⟨?_, ?_, ?_⟩
  · intro c hr hc
    simp [write_maps_with_helpers, hu, hsuC, hsu, hsgC, hsg, hr, helperSuccess,
          helperFailCode, hc]
  · intro c hr hg hc
    simp [write_maps_with_helpers, hu, hsuC, hsu, hsgC, hsg, hr, hg, helperSuccess,
          helperFailCode, hc]
  · intro hr hg
    simp [write_maps_with_helpers, hu, hsuC, hsu, hsgC, hsg, hr, hg, helperSuccess]

/-- Witness for C8: both helpers succeed for the user `alice`. -/
theorem write_maps_with_helpers_arguments_witness :
    write_maps_with_helpers 7 helperWorldAlice =
      ([Action.execHelper "newuidmap" ["7", "0", "1000", "1", "1", "100000", "65536"],
        Action.execHelper "newgidmap" ["7", "0", "1000", "1", "1", "200000", "65536"]],
       Except.ok ()) :=
  (write_maps_with_helpers_arguments 7 helperWorldAlice "alice"
    "alice:100000:65536\n" "alice:200000:65536\n" ⟨100000, 65536⟩ ⟨200000, 65536⟩
    rfl rfl (by decide) rfl (by decide)).2.2 rfl rfl

/-! ## Theorems: child setup -/

/-- The bind-mount loop never produces the barrier-wait error. -/
theorem setup_bind_mounts_no_barrier (bms : List BindMount) (ok : Nat → Bool) (i : Nat) :
    (setup_bind_mounts bms ok i).2 ≠ Except.error IsolateError.barrierWaitFailed := by
  induction bms generalizing i with
  | nil => simp [setup_bind_mounts]
  | cons bm rest ih =>
    simp only [setup_bind_mounts]
    split
    · simp
    · split
      · simp
      · split
        · simpa using ih (i + 1)
        · simp

/-- Claim C10: a barrier read that returns without an OS error — including a
zero-byte end-of-file result — lets the child proceed to mount setup, while a
read error is the terminal barrier-wait failure. -/
theorem child_setup_barrier_eof (cfg : Isolator) (w : ChildWorld) :
    (∀ n, w.readResult = Except.ok n →
      (child_setup cfg w).1.take 2 = [Action.barrierRead, Action.mountPrivate] ∧
      (child_setup cfg w).2 ≠ Except.error IsolateError.barrierWaitFailed) ∧
    (∀ e, w.readResult = Except.error e →
      child_setup cfg w = ([Action.barrierRead], Except.error IsolateError.barrierWaitFailed)) := by
  constructor
  · intro n hr
    by_cases hmp : w.mountPrivateOk
    · cases hsb : (setup_bind_mounts cfg.bind_mounts w.bindOk 0).2 with
      | error e =>
        have hnb := setup_bind_mounts_no_barrier cfg.bind_mounts w.bindOk 0
        rw [hsb] at hnb
        constructor
        · simp [child_setup, hr, hmp, hsb]
        · simp only [child_setup, hr, hmp, hsb]
          simpa using hnb
      | ok u =>
        cases hcp : cfg.chroot_path with
        | none => constructor <;> simp [child_setup, hr, hmp, hsb, hcp]
        | some p =>
          by_cases hcr : w.chrootOk
          · by_cases hcd : w.chdirOk <;>
              constructor <;> simp [child_setup, hr, hmp, hsb, hcp, hcr, hcd]
          · constructor <;> simp [child_setup, hr, hmp, hsb, hcp, hcr]
    · constructor <;> simp [child_setup, hr, hmp]
  · intro e hr
    simp [child_setup, hr]

/-- Witness for C10 at a world whose barrier read returns 0 bytes (EOF). -/
theorem child_setup_barrier_eof_witness :
    (child_setup Isolator.new childWorldOk).1.take 2 =
      [Action.barrierRead, Action.mountPrivate] :=
  ((child_setup_barrier_eof Isolator.new childWorldOk).1 0 rfl).1

end RugixIsolator

namespace RugixIsolator

/-! ## Theorems: bind-mount loop -/

/-- When every attempted mount succeeds and the paths are NUL-free, the loop
emits one `mount` per descriptor, in order, with `MS_BIND` or-ed with `MS_REC`
exactly for recursive descriptors. -/
theorem setup_bind_mounts_all_ok (bms : List BindMount) (ok : Nat → Bool) :
    ∀ i, (∀ bm ∈ bms, bm.src.data.contains '\x00' = false ∧
                      bm.dst.data.contains '\x00' = false) →
    (∀ j, j < bms.length → ok (i + j) = true) →
    setup_bind_mounts bms ok i =
      (bms.map (fun bm => Action.bindMount bm.src bm.dst
         (MS_BIND ||| (if bm.recursive then MS_REC else 0))), Except.ok ()) := by
  induction bms with
  | nil => intro i _ _; simp [setup_bind_mounts]
  | cons bm rest ih =>
    intro i hnul hok
    have h0 : ok i = true := by simpa using hok 0 (by simp)
    have hbm := hnul bm (by simp)
    have hrest : ∀ j, j < rest.length → ok (i + 1 + j) = true := by
      intro j hj
      have h := hok (j + 1) (by simp; omega)
      have heq : i + 1 + j = i + (j + 1) := by omega
      rwa [heq]
    have hrec := ih (i + 1) (fun b hb => hnul b (by simp [hb])) hrest
    have hs2 : '\x00' ∉ bm.src.data := by simpa using hbm.1
    have hd2 : '\x00' ∉ bm.dst.data := by simpa using hbm.2
    simp [setup_bind_mounts, hs2, hd2, h0, hrec]

/-- When the mounts before `bm` succeed and the mount of `bm` fails, the loop
stops right after the failing attempt and reports the offending pair. -/
theorem setup_bind_mounts_first_fail (pre : List BindMount) (bm : BindMount)
    (post : List BindMount) (ok : Nat → Bool) :
    ∀ i, (∀ b ∈ pre, b.src.data.contains '\x00' = false ∧
                     b.dst.data.contains '\x00' = false) →
    bm.src.data.contains '\x00' = false →
    bm.dst.data.contains '\x00' = false →
    (∀ j, j < pre.length → ok (i + j) = true) →
    ok (i + pre.length) = false →
    setup_bind_mounts (pre ++ bm :: post) ok i =
      (pre.map (fun b => Action.bindMount b.src b.dst
          (MS_BIND ||| (if b.recursive then MS_REC else 0))) ++
        [Action.bindMount bm.src bm.dst
          (MS_BIND ||| (if bm.recursive then MS_REC else 0))],
       Except.error (IsolateError.bindMountFailed bm.src bm.dst)) := by
  induction pre with
  | nil =>
    intro i _ hs hd _ hfail
    have h0 : ok i = false := by simpa using hfail
    have hs2 : '\x00' ∉ bm.src.data := by simpa using hs
    have hd2 : '\x00' ∉ bm.dst.data := by simpa using hd
    simp [setup_bind_mounts, hs2, hd2, h0]
  | cons b pre ih =>
    intro i hnul hs hd hok hfail
    have hb := hnul b (by simp)
    have h0 : ok i = true := by simpa using hok 0 (by simp)
    have hok2 : ∀ j, j < pre.length → ok (i + 1 + j) = true := by
      intro j hj
      have h := hok (j + 1) (by simp; omega)
      have heq : i + 1 + j = i + (j + 1) := by omega
      rwa [heq]
    have hfail2 : ok (i + 1 + pre.length) = false := by
      have heq : i + 1 + pre.length = i + (b :: pre).length := by simp; omega
      rwa [heq]
    have hrec := ih (i + 1) (fun b2 hb2 => hnul b2 (by simp [hb2])) hs hd hok2 hfail2
    have hs2 : '\x00' ∉ b.src.data := by simpa using hb.1
    have hd2 : '\x00' ∉ b.dst.data := by simpa using hb.2
    simp [setup_bind_mounts, hs2, hd2, h0, hrec]

/-- Claim C7: in the child, bind mounts are applied one per descriptor in
configuration order with flags `MS_BIND` plus `MS_REC` exactly for recursive
descriptors; only after all of them succeed is the configured chroot applied,
followed by `chdir("/")`; a failed bind mount is terminal and reports the
offending source/destination pair. -/
theorem child_setup_mount_order (cfg : Isolator) (w : ChildWorld) (n : Nat) :
    w.readResult = Except.ok n →
    w.mountPrivateOk = true →
    (∀ bm ∈ cfg.bind_mounts, bm.src.data.contains '\x00' = false ∧
                             bm.dst.data.contains '\x00' = false) →
    ((∀ p, cfg.chroot_path = some p →
      (∀ j, j < cfg.bind_mounts.length → w.bindOk j = true) →
      w.chrootOk = true → w.chdirOk = true →
      child_setup cfg w =
        (Action.barrierRead :: Action.mountPrivate ::
           (cfg.bind_mounts.map (fun bm => Action.bindMount bm.src bm.dst
              (MS_BIND ||| (if bm.recursive then MS_REC else 0))) ++
            [Action.chroot p, Action.chdir "/"]),
         Except.ok ())) ∧
     (∀ pre bm post, cfg.bind_mounts = pre ++ bm :: post →
      (∀ j, j < pre.length → w.bindOk j = true) →
      w.bindOk pre.length = false →
      child_setup cfg w =
        (Action.barrierRead :: Action.mountPrivate ::
           (pre.map (fun b => Action.bindMount b.src b.dst
              (MS_BIND ||| (if b.recursive then MS_REC else 0))) ++
            [Action.bindMount bm.src bm.dst
              (MS_BIND ||| (if bm.recursive then MS_REC else 0))]),
         Except.error (IsolateError.bindMountFailed bm.src bm.dst)))) := by
  intro hr hmp hnul
  constructor
  · intro p hcp hall hcr hcd
    have hsb := setup_bind_mounts_all_ok cfg.bind_mounts w.bindOk 0 hnul
      (fun j hj => by simpa using hall j hj)
    simp [child_setup, hr, hmp, hsb, hcp, hcr, hcd]
  · intro pre bm post hdec hok hfail
    have hnul2 : ∀ b ∈ pre, b.src.data.contains '\x00' = false ∧
        b.dst.data.contains '\x00' = false := by
      intro b hb
      exact hnul b (by simp [hdec, hb])
    have hbm : bm.src.data.contains '\x00' = false ∧
        bm.dst.data.contains '\x00' = false := hnul bm (by simp [hdec])
    have hsb := setup_bind_mounts_first_fail pre bm post w.bindOk 0 hnul2 hbm.1 hbm.2
      (fun j hj => by simpa using hok j hj) (by simpa using hfail)
    simp [child_setup, hr, hmp, hdec, hsb]

/-- Witness for C7 at a concrete configuration with two bind mounts (the second
recursive) and a chroot, in a world where everything succeeds. -/
theorem child_setup_mount_order_witness :
    child_setup isolatorSample childWorldOk =
      (Action.barrierRead :: Action.mountPrivate ::
         (isolatorSample.bind_mounts.map (fun bm => Action.bindMount bm.src bm.dst
            (MS_BIND ||| (if bm.recursive then MS_REC else 0))) ++
          [Action.chroot "/newroot", Action.chdir "/"]),
       Except.ok ()) :=
  (child_setup_mount_order isolatorSample childWorldOk 0 rfl rfl (by decide)).1
    "/newroot" rfl (fun _ _ => rfl) rfl rfl

/-! ## Theorems: isolate entry and parent supervisor -/

/-- Claim C6: the single-thread gate has three outcomes; a confirmed
multi-threaded process and an undetermined thread count each fail `isolate`
with distinct errors before the pipe is created or `clone` is attempted, so no
child process is produced. -/
theorem isolate_single_thread_gate (cfg : Isolator) (w : IsolateWorld) :
    (is_single_threaded w.statusContent = some false →
      isolate cfg w = ([Action.readStatus], Outcome.errNoChild IsolateError.multiThreaded)) ∧
    (is_single_threaded w.statusContent = none →
      isolate cfg w = ([Action.readStatus], Outcome.errNoChild IsolateError.threadCountUnknown)) ∧
    IsolateError.multiThreaded ≠ IsolateError.threadCountUnknown ∧
    Action.createPipe ∉ [Action.readStatus] ∧
    (∀ f, Action.clone f ∉ [Action.readStatus]) := by
  refine ⟨?_, ?_, by decide, by decide, ?_⟩
  · intro h
    simp [isolate, h]
  · intro h
    simp [isolate, h]
  · intro f
    simp

/-- Witness for C6 at a world reporting two threads. -/
theorem isolate_single_thread_gate_witness :
    isolate Isolator.new isolateWorldMulti =
      ([Action.readStatus], Outcome.errNoChild IsolateError.multiThreaded) :=
  (isolate_single_thread_gate Isolator.new isolateWorldMulti).1 (by decide)

/-- The parent supervisor never returns `Ok` to the caller. -/
theorem parent_run_not_ok_child (child_pid : Nat) (pum pgm : String) (w : ParentWorld) :
    (parent_run child_pid pum pgm w).2 ≠ Outcome.retOkChild := by
  cases hp : w.pidfdOk with
  | false => simp [parent_run, hp]
  | true =>
    cases hm : (write_maps child_pid pum pgm w.maps).2 with
    | error e =>
      cases hk : w.killOk with
      | false => simp [parent_run, hp, hm, hk]
      | true =>
        cases hw : wait_for_child w.waitAfterKill <;> simp [parent_run, hp, hm, hk, hw]
    | ok u =>
      cases hw : wait_for_child w.waitFinal with
      | reaped r => cases r <;> simp [parent_run, hp, hm, hw]
      | waitFailed => simp [parent_run, hp, hm, hw]
      | pending => simp [parent_run, hp, hm, hw]

/-- Claim C1: `isolate` returns `Ok` only in the child; in the parent it never
returns on success — after the child terminates the parent exits with the
child's exit code, or with `128 + signal` when the child was signaled. -/
theorem isolate_ok_only_in_child (cfg : Isolator) (w : IsolateWorld) :
    ((isolate cfg w).2 = Outcome.retOkChild → w.cloneRet = 0) ∧
    (∀ pum pgm, is_single_threaded w.statusContent = some true →
      w.uidMapRead = some pum → w.gidMapRead = some pgm → w.pipeOk = true →
      0 < w.cloneRet →
      (isolate cfg w).2 = (parent_run w.cloneRet.toNat pum pgm w.parent).2) ∧
    (∀ child_pid pum pgm pw, (parent_run child_pid pum pgm pw).2 ≠ Outcome.retOkChild) ∧
    (∀ child_pid pum pgm pw code, pw.pidfdOk = true →
      (write_maps child_pid pum pgm pw.maps).2 = Except.ok () →
      wait_for_child pw.waitFinal = WaitResult.reaped (ChildExitReason.exited code) →
      (parent_run child_pid pum pgm pw).2 = Outcome.exitProcess code) ∧
    (∀ child_pid pum pgm pw sig, pw.pidfdOk = true →
      (write_maps child_pid pum pgm pw.maps).2 = Except.ok () →
      wait_for_child pw.waitFinal = WaitResult.reaped (ChildExitReason.signaled sig) →
      (parent_run child_pid pum pgm pw).2 = Outcome.exitProcess (128 + sig)) := by
  refine ⟨?_, ?_, ?_, ?_, ?_⟩
  · intro h
    cases hst : is_single_threaded w.statusContent with
    | none => simp [isolate, hst] at h
    | some b =>
      cases b with
      | false => simp [isolate, hst] at h
      | true =>
        cases hum : w.uidMapRead with
        | none => simp [isolate, hst, hum] at h
        | some pum =>
          cases hgm : w.gidMapRead with
          | none => simp [isolate, hst, hum, hgm] at h
          | some pgm =>
            cases hpipe : w.pipeOk with
            | false => simp [isolate, hst, hum, hgm, hpipe] at h
            | true =>
              by_cases hneg : w.cloneRet < 0
              · simp [isolate, hst, hum, hgm, hpipe, hneg] at h
              · by_cases hz : w.cloneRet = 0
                · exact hz
                · simp [isolate, hst, hum, hgm, hpipe, hneg, hz] at h
                  exact absurd h (parent_run_not_ok_child w.cloneRet.toNat pum pgm w.parent)
  · intro pum pgm hst hum hgm hpipe hpos
    have hneg : ¬ w.cloneRet < 0 := by omega
    have hz : ¬ w.cloneRet = 0 := by omega
    simp [isolate, hst, hum, hgm, hpipe, hneg, hz]
  · intro child_pid pum pgm pw
    exact parent_run_not_ok_child child_pid pum pgm pw
  · intro child_pid pum pgm pw code hp hm hw
    simp [parent_run, hp, hm, hw]
  · intro child_pid pum pgm pw sig hp hm hw
    simp [parent_run, hp, hm, hw]

/-- Witness for C1: a parent world whose child exits with code 5. -/
theorem isolate_ok_only_in_child_witness :
    (parent_run 7 "" "" parentWorldExit5).2 = Outcome.exitProcess 5 :=
  (isolate_ok_only_in_child Isolator.new isolateWorldParent).2.2.2.1
    7 "" "" parentWorldExit5 5 rfl rfl rfl

end RugixIsolator

namespace RugixIsolator

/-! ## Theorems: subordinate-ID parsing -/

/-- The line scan returns the result of the first line whose parse succeeds. -/
theorem subidSearch_first (username : List Char) :
    ∀ pre line post r, (∀ l ∈ pre, parse_subid_line username l = none) →
    parse_subid_line username line = some r →
    subidSearch username (pre ++ line :: post) = some r := by
  intro pre
  induction pre with
  | nil => intro line post r _ h; simp [subidSearch, h]
  | cons l pre ih =>
    intro line post r hpre h
    have hl : parse_subid_line username l = none := hpre l (by simp)
    simp only [List.cons_append, subidSearch, hl]
    exact ih line post r (fun l2 h2 => hpre l2 (by simp [h2])) h

/-- The line scan is absent when no line parses. -/
theorem subidSearch_none (username : List Char) :
    ∀ ls, (∀ l ∈ ls, parse_subid_line username l = none) →
    subidSearch username ls = none := by
  intro ls
  induction ls with
  | nil => intro _; simp [subidSearch]
  | cons l rest ih =>
    intro h
    have hl := h l (by simp)
    simp only [subidSearch, hl]
    exact ih (fun l2 h2 => h l2 (by simp [h2]))

/-- Claim C3: subordinate-ID lookup splits lines on colons, matches the trimmed
first field exactly against the username, skips lines whose start or count does
not parse as `u32`, returns the first matching parseable line, and is absent
when no line matches; on the claim's concrete file, `alice` resolves to
`{start := 100000, count := 65536}`, `carol` is absent, and an `alice:bad:1`
line is skipped. -/
theorem parse_subid_file_first_match :
    (∀ content username pre line post r,
      rustLines content.data = pre ++ line :: post →
      (∀ l ∈ pre, parse_subid_line username.data l = none) →
      parse_subid_line username.data line = some r →
      parse_subid_file content username = some r) ∧
    (∀ content username,
      (∀ l ∈ rustLines content.data, parse_subid_line username.data l = none) →
      parse_subid_file content username = none) ∧
    parse_subid_file "alice:100000:65536\nbob:200000:65536\n" "alice" =
      some ⟨100000, 65536⟩ ∧
    parse_subid_file "alice:100000:65536\nbob:200000:65536\n" "carol" = none ∧
    parse_subid_file "alice:bad:1\nalice:100000:65536\n" "alice" =
      some ⟨100000, 65536⟩ ∧
    parse_subid_line "alice".data "alice:bad:1".data = none ∧
    parse_subid_file " alice\t:100000:65536\n" "alice" = some ⟨100000, 65536⟩ := by
  refine ⟨?_, ?_, by decide, by decide, by decide, by decide, by decide⟩
  · intro content username pre line post r hdec hpre h
    unfold parse_subid_file
    rw [hdec]
    exact subidSearch_first username.data pre line post r hpre h
  · intro content username h
    exact subidSearch_none username.data (rustLines content.data) h

/-- Witness for C3: a file without a matching line yields an absent result. -/
theorem parse_subid_file_first_match_witness :
    parse_subid_file "bob:1:2\n" "alice" = none :=
  parse_subid_file_first_match.2.1 "bob:1:2\n" "alice" (by decide)

/-! ## Theorems: splitting words and lines -/

/-- A whitespace-free word at the front of the input is accumulated whole. -/
theorem splitWsAux_append_word (word : List Char)
    (h : ∀ c ∈ word, c.isWhitespace = false) :
    ∀ cur rest, splitWsAux cur (word ++ rest) = splitWsAux (word.reverse ++ cur) rest := by
  induction word with
  | nil => intro cur rest; simp
  | cons c w ih =>
    intro cur rest
    have hc : c.isWhitespace = false := h c (by simp)
    have hw : ∀ c2 ∈ w, c2.isWhitespace = false := fun c2 h2 => h c2 (by simp [h2])
    rw [List.cons_append]
    rw [show splitWsAux cur (c :: (w ++ rest)) = splitWsAux (c :: cur) (w ++ rest) by
      simp [splitWsAux, hc]]
    rw [ih hw (c :: cur) rest]
    simp [List.append_assoc]

/-- A single token splits to itself. -/
theorem splitWs_word_only (c : List Char) (hc : TokChars c) :
    splitWsAux [] c = [c] := by
  have h := splitWsAux_append_word c hc.2 [] []
  rw [List.append_nil] at h
  rw [h, List.append_nil]
  have hne : c.reverse.isEmpty = false := by
    cases hcc : c.reverse with
    | nil => exact absurd (by simpa using hcc) hc.1
    | cons d tl => rfl
  simp [splitWsAux, hne]

/-- A space emits the accumulated word. -/
theorem splitWsAux_emit (cur rest : List Char) (hcur : cur ≠ []) :
    splitWsAux cur (' ' :: rest) = cur.reverse :: splitWsAux [] rest := by
  have hws : (' ' : Char).isWhitespace = true := by decide
  have hne : cur.isEmpty = false := by
    cases cur with
    | nil => exact absurd rfl hcur
    | cons d tl => rfl
  simp [splitWsAux, hws, hne]

/-- A three-token line splits into exactly its three tokens. -/
theorem splitWs_three (a b c : List Char) (ha : TokChars a) (hb : TokChars b)
    (hc : TokChars c) :
    splitWhitespace (a ++ ' ' :: (b ++ ' ' :: c)) = [a, b, c] := by
  unfold splitWhitespace
  rw [splitWsAux_append_word a ha.2, List.append_nil]
  rw [splitWsAux_emit a.reverse _ (by simpa using ha.1)]
  rw [splitWsAux_append_word b hb.2, List.append_nil]
  rw [splitWsAux_emit b.reverse _ (by simpa using hb.1)]
  rw [splitWs_word_only c hc]
  simp

/-- A newline-terminated fragment becomes one line of the output. -/
theorem rustLinesAux_line (l : List Char) (h : '\n' ∉ l) :
    ∀ cur rest, rustLinesAux cur (l ++ '\n' :: rest) =
      finishLine (l.reverse ++ cur) :: rustLinesAux [] rest := by
  induction l with
  | nil => intro cur rest; simp [rustLinesAux]
  | cons c l ih =>
    intro cur rest
    have hc : ¬ c = '\n' := fun hh => h (by simp [hh])
    have hl : '\n' ∉ l := fun hh => h (by simp [hh])
    rw [List.cons_append]
    rw [show rustLinesAux cur (c :: (l ++ '\n' :: rest)) =
        rustLinesAux (c :: cur) (l ++ '\n' :: rest) by
      simp [rustLinesAux, hc]]
    rw [ih hl (c :: cur) rest]
    simp [List.append_assoc]

/-- Finishing a reversed line without a trailing carriage return restores it. -/
theorem finishLine_eq (l : List Char) (h : l.reverse.head? ≠ some '\r') :
    finishLine l.reverse = l := by
  unfold finishLine
  rw [if_neg h]
  exact List.reverse_reverse l

/-- Lines made of spaces and non-whitespace characters pass through `rustLines`. -/
theorem rustLines_cons_line (l rest : List Char)
    (h : ∀ c ∈ l, c = ' ' ∨ c.isWhitespace = false) :
    rustLines (l ++ '\n' :: rest) = l :: rustLines rest := by
  have hnl : '\n' ∉ l := by
    intro hmem
    rcases h _ hmem with h1 | h2
    · exact absurd h1 (by decide)
    · exact absurd h2 (by decide)
  unfold rustLines
  rw [rustLinesAux_line l hnl [] rest, List.append_nil]
  congr 1
  apply finishLine_eq
  cases hrev : l.reverse with
  | nil => simp
  | cons d tl =>
    have hd : d ∈ l := by
      have hd2 : d ∈ l.reverse := by rw [hrev]; simp
      simpa using hd2
    have hdr : d ≠ '\r' := by
      rcases h d hd with h1 | h2
      · rw [h1]; decide
      · intro hcontra
        rw [hcontra] at h2
        exact absurd h2 (by decide)
    simp [hdr]

/-- Applying `rustLines` to a concatenation of newline-terminated lines recovers them. -/
theorem rustLines_join_aux (ls : List (List Char))
    (h : ∀ l ∈ ls, ∀ c ∈ l, c = ' ' ∨ c.isWhitespace = false) :
    rustLines ((ls.map (fun l => l ++ ['\n'])).flatten) = ls := by
  induction ls with
  | nil => simp [rustLines, rustLinesAux]
  | cons l ls ih =>
    have hl := h l (by simp)
    have hls : ∀ l2 ∈ ls, ∀ c ∈ l2, c = ' ' ∨ c.isWhitespace = false :=
      fun l2 h2 => h l2 (by simp [h2])
    simp only [List.map_cons, List.flatten_cons]
    rw [List.append_assoc, List.singleton_append, rustLines_cons_line l _ hl, ih hls]

/-! ## Theorems: the identity-map fold -/

/-- One step of the fold appends that line's contribution. -/
theorem identityStep_out (acc line : List Char) :
    identityStep acc line = acc ++ lineOut line := by
  unfold identityStep lineOut
  rcases hsp : splitWhitespace line with _ | ⟨a, _ | ⟨b, _ | ⟨c, rest⟩⟩⟩ <;>
    simp [List.append_assoc]

/-- The fold's accumulator factors out. -/
theorem foldl_identityStep_acc (lines : List (List Char)) :
    ∀ acc, lines.foldl identityStep acc = acc ++ lines.foldl identityStep [] := by
  induction lines with
  | nil => intro acc; simp
  | cons l ls ih =>
    intro acc
    simp only [List.foldl_cons]
    rw [ih (identityStep acc l), ih (identityStep [] l),
        identityStep_out acc l, identityStep_out [] l]
    simp [List.append_assoc]

/-- The fold is the concatenation of the per-line contributions. -/
theorem foldl_identityStep_join (lines : List (List Char)) :
    lines.foldl identityStep [] = (lines.map lineOut).flatten := by
  induction lines with
  | nil => simp
  | cons l ls ih =>
    simp only [List.foldl_cons, List.map_cons, List.flatten_cons]
    rw [foldl_identityStep_acc ls (identityStep [] l), ih, identityStep_out [] l]
    simp

/-- The contribution of a rendered three-token line copies the first token twice
and keeps the count. -/
theorem lineOut_body (t : List Char × List Char × List Char)
    (h : TokChars t.1 ∧ TokChars t.2.1 ∧ TokChars t.2.2) :
    lineOut (lineBodyChars t) = lineBodyChars (t.1, t.1, t.2.2) ++ ['\n'] := by
  obtain ⟨a, b, c⟩ := t
  have hsp : splitWhitespace (lineBodyChars (a, b, c)) = [a, b, c] := by
    have h3 := splitWs_three a b c h.1 h.2.1 h.2.2
    have heq : lineBodyChars (a, b, c) = a ++ ' ' :: (b ++ ' ' :: c) := by
      simp [lineBodyChars, List.append_assoc]
    rw [heq]
    exact h3
  unfold lineOut
  rw [hsp]
  simp [lineBodyChars, List.append_assoc]

/-- Every character of a rendered line body is a space or non-whitespace. -/
theorem lineBody_chars (t : List Char × List Char × List Char)
    (h : TokChars t.1 ∧ TokChars t.2.1 ∧ TokChars t.2.2) :
    ∀ ch ∈ lineBodyChars t, ch = ' ' ∨ ch.isWhitespace = false := by
  obtain ⟨a, b, c⟩ := t
  intro ch hch
  have ha := h.1.2 ch
  have hb := h.2.1.2 ch
  have hcc := h.2.2.2 ch
  simp only [lineBodyChars, List.append_assoc, List.singleton_append, List.mem_append,
    List.mem_cons] at hch ha hb hcc
  tauto

/-- The identity fold of a concatenation of rendered `inside outside count`
lines renders `inside inside count` for each line. -/
theorem identity_fold_render (ts : List (List Char × List Char × List Char))
    (h : ∀ t ∈ ts, TokChars t.1 ∧ TokChars t.2.1 ∧ TokChars t.2.2) :
    (rustLines ((ts.map (fun t => lineBodyChars t ++ ['\n'])).flatten)).foldl identityStep [] =
      (ts.map (fun t => lineBodyChars (t.1, t.1, t.2.2) ++ ['\n'])).flatten := by
  have hmap : ts.map (fun t => lineBodyChars t ++ ['\n']) =
      (ts.map lineBodyChars).map (fun l => l ++ ['\n']) := by
    rw [List.map_map]
    rfl
  have hchars : ∀ l ∈ ts.map lineBodyChars, ∀ c ∈ l, c = ' ' ∨ c.isWhitespace = false := by
    intro l hl
    rcases List.mem_map.mp hl with ⟨t, ht, rfl⟩
    exact lineBody_chars t (h t ht)
  rw [hmap, rustLines_join_aux _ hchars, foldl_identityStep_join, List.map_map]
  congr 1
  apply List.map_congr_left
  intro t ht
  have := lineOut_body t (h t ht)
  simpa [Function.comp] using this

end RugixIsolator

namespace RugixIsolator

/-! ## Theorems: string/character-list conversions -/

/-- Appending strings appends their character lists. -/
theorem string_append_data (a b : String) : (a ++ b).data = a.data ++ b.data := by
  cases a; cases b; rfl

/-- Joining strings flattens their character lists. -/
theorem string_join_data (ls : List String) :
    (String.join ls).data = (ls.map String.data).flatten := by
  have haux : ∀ (ls : List String) (s : String),
      (List.foldl (fun r s2 => r ++ s2) s ls).data =
        s.data ++ (ls.map String.data).flatten := by
    intro ls
    induction ls with
    | nil => intro s; simp
    | cons l ls ih =>
      intro s
      simp only [List.foldl_cons, List.map_cons, List.flatten_cons]
      rw [ih (s ++ l), string_append_data]
      simp [List.append_assoc]
  show (List.foldl (fun r s2 => r ++ s2) "" ls).data = _
  rw [haux ls ""]
  rfl

/-- The characters of a rendered map line. -/
theorem renderMapLine_data (t : String × String × String) :
    (renderMapLine t).data = lineBodyChars (t.1.data, t.2.1.data, t.2.2.data) ++ ['\n'] := by
  obtain ⟨a, b, c⟩ := t
  simp [renderMapLine, lineBodyChars, string_append_data,
    show (" " : String).data = [' '] from rfl,
    show ("\n" : String).data = ['\n'] from rfl]

/-- The characters of a rendered identity line. -/
theorem renderIdLine_data (t : String × String × String) :
    (renderIdLine t).data = lineBodyChars (t.1.data, t.1.data, t.2.2.data) ++ ['\n'] := by
  obtain ⟨a, b, c⟩ := t
  simp [renderIdLine, lineBodyChars, string_append_data,
    show (" " : String).data = [' '] from rfl,
    show ("\n" : String).data = ['\n'] from rfl]

/-- The decidable token check implies the character-level token property. -/
theorem tokenOk_chars (s : String) (h : tokenOk s = true) : TokChars s.data := by
  simp only [tokenOk, Bool.and_eq_true, List.all_eq_true, Bool.not_eq_true'] at h
  constructor
  · intro hnil
    rw [hnil] at h
    simp at h
  · intro c hc
    exact h.2 c hc

/-- Claim C2: for a parent map made of `inside outside count` lines the derived
map is `inside inside count` line for line; the empty parent map yields exactly
`"0 0 1\n"`; and the concrete round trip of the claim holds. -/
theorem make_identity_map_identity_lines (ts : List (String × String × String)) :
    (∀ t ∈ ts, tokenOk t.1 = true ∧ tokenOk t.2.1 = true ∧ tokenOk t.2.2 = true) →
    ((ts ≠ [] →
       make_identity_map (String.join (ts.map renderMapLine)) =
         String.join (ts.map renderIdLine)) ∧
     make_identity_map "" = "0 0 1\n" ∧
     make_identity_map "0 1000 1\n1 100000 65536\n" = "0 0 1\n1 1 65536\n") := by
  intro htok
  refine ⟨?_, by decide, by decide⟩
  intro hne
  have hdtok : ∀ d ∈ ts.map (fun t => (t.1.data, t.2.1.data, t.2.2.data)),
      TokChars d.1 ∧ TokChars d.2.1 ∧ TokChars d.2.2 := by
    intro d hd
    rcases List.mem_map.mp hd with ⟨t, ht, rfl⟩
    exact ⟨tokenOk_chars t.1 (htok t ht).1, tokenOk_chars t.2.1 (htok t ht).2.1,
           tokenOk_chars t.2.2 (htok t ht).2.2⟩
  have hdata : (String.join (ts.map renderMapLine)).data =
      ((ts.map (fun t => (t.1.data, t.2.1.data, t.2.2.data))).map
        (fun t => lineBodyChars t ++ ['\n'])).flatten := by
    rw [string_join_data, List.map_map, List.map_map]
    congr 1
  have hdataId : (String.join (ts.map renderIdLine)).data =
      ((ts.map (fun t => (t.1.data, t.2.1.data, t.2.2.data))).map
        (fun t => lineBodyChars (t.1, t.1, t.2.2) ++ ['\n'])).flatten := by
    rw [string_join_data, List.map_map, List.map_map]
    congr 1
  have hfold := identity_fold_render
    (ts.map (fun t => (t.1.data, t.2.1.data, t.2.2.data))) hdtok
  have hRne : (((ts.map (fun t => (t.1.data, t.2.1.data, t.2.2.data))).map
      (fun t => lineBodyChars (t.1, t.1, t.2.2) ++ ['\n'])).flatten).isEmpty = false := by
    cases ts with
    | nil => exact absurd rfl hne
    | cons t ts2 => simp
  unfold make_identity_map
  rw [hdata, hfold]
  simp only [hRne, Bool.false_eq_true, if_false]
  refine String.ext ?_
  rw [hdataId]

/-- Witness for C2 at the claim's concrete two-line parent map. -/
theorem make_identity_map_identity_lines_witness :
    make_identity_map "0 1000 1\n1 100000 65536\n" = "0 0 1\n1 1 65536\n" :=
  (make_identity_map_identity_lines [("0", "1000", "1"), ("1", "100000", "65536")]
    (by decide)).2.2

end RugixIsolator

namespace RugixIsolator

/-! ## Theorems: idempotence of the identity map -/

/-- Every word produced by the whitespace split is a nonempty, whitespace-free
token. -/
theorem splitWsAux_tokens (s : List Char) :
    ∀ cur, (∀ c ∈ cur, c.isWhitespace = false) →
    ∀ w ∈ splitWsAux cur s, TokChars w := by
  induction s with
  | nil =>
    intro cur hcur w hw
    simp only [splitWsAux] at hw
    by_cases hc : cur.isEmpty = true
    · rw [if_pos hc] at hw
      simp at hw
    · rw [if_neg hc] at hw
      simp at hw
      subst hw
      have hcne : cur ≠ [] := by
        intro h2
        rw [h2] at hc
        exact hc rfl
      exact ⟨by simpa using hcne, fun c2 hc2 => hcur c2 (by simpa using hc2)⟩
  | cons c rest ih =>
    intro cur hcur w hw
    simp only [splitWsAux] at hw
    by_cases hcw : c.isWhitespace = true
    · rw [if_pos hcw] at hw
      by_cases hce : cur.isEmpty = true
      · rw [if_pos hce] at hw
        exact ih [] (by simp) w hw
      · rw [if_neg hce] at hw
        simp only [List.mem_cons] at hw
        rcases hw with hw | hw
        · subst hw
          have hcne : cur ≠ [] := by
            intro h2
            rw [h2] at hce
            exact hce rfl
          exact ⟨by simpa using hcne, fun c2 hc2 => hcur c2 (by simpa using hc2)⟩
        · exact ih [] (by simp) w hw
    · rw [if_neg hcw] at hw
      refine ih (c :: cur) ?_ w hw
      intro c2 hc2
      rcases List.mem_cons.mp hc2 with rfl | h2
      · simpa using hcw
      · exact hcur c2 h2

/-- The per-line contributions of the fold, expressed through the parsed
(container-ID, count) pairs. -/
theorem flatten_lineOut_filterMap (lines : List (List Char)) :
    (lines.map lineOut).flatten =
      ((lines.filterMap lineParsePair).map
        (fun p => lineBodyChars (p.1, p.1, p.2) ++ ['\n'])).flatten := by
  induction lines with
  | nil => simp
  | cons l ls ih =>
    rcases hsp : splitWhitespace l with _ | ⟨a, _ | ⟨b, _ | ⟨c, rest⟩⟩⟩
    · have h1 : lineOut l = [] := by unfold lineOut; rw [hsp]
      have h2 : lineParsePair l = none := by unfold lineParsePair; rw [hsp]
      simp [h1, h2, ih]
    · have h1 : lineOut l = [] := by unfold lineOut; rw [hsp]
      have h2 : lineParsePair l = none := by unfold lineParsePair; rw [hsp]
      simp [h1, h2, ih]
    · have h1 : lineOut l = [] := by unfold lineOut; rw [hsp]
      have h2 : lineParsePair l = none := by unfold lineParsePair; rw [hsp]
      simp [h1, h2, ih]
    · have h1 : lineOut l = a ++ [' '] ++ a ++ [' '] ++ c ++ ['\n'] := by
        unfold lineOut; rw [hsp]
      have h2 : lineParsePair l = some (a, c) := by
        unfold lineParsePair; rw [hsp]
      simp [h1, h2, ih, lineBodyChars, List.append_assoc]

/-- The parsed pair of a line consists of tokens. -/
theorem lineParsePair_tokens (line : List Char) (p : List Char × List Char)
    (h : lineParsePair line = some p) : TokChars p.1 ∧ TokChars p.2 := by
  unfold lineParsePair at h
  rcases hsp : splitWhitespace line with _ | ⟨a, _ | ⟨b, _ | ⟨c, rest⟩⟩⟩ <;>
      rw [hsp] at h
  · exact absurd h (by simp)
  · exact absurd h (by simp)
  · exact absurd h (by simp)
  · have hp : p = (a, c) := by
      have := h
      simp at this
      exact this.symm
    subst hp
    have ha : a ∈ splitWsAux [] line := by
      show a ∈ splitWhitespace line
      rw [hsp]; simp
    have hc : c ∈ splitWsAux [] line := by
      show c ∈ splitWhitespace line
      rw [hsp]; simp
    exact ⟨splitWsAux_tokens line [] (by simp) a ha,
           splitWsAux_tokens line [] (by simp) c hc⟩

/-- The identity map of a string that is already an identity rendering of token
pairs is that string itself. -/
theorem make_identity_map_of_mk_flatten (ps : List (List Char × List Char))
    (h : ∀ p ∈ ps, TokChars p.1 ∧ TokChars p.2) (hne : ps ≠ []) :
    make_identity_map
      (String.mk ((ps.map (fun p => lineBodyChars (p.1, p.1, p.2) ++ ['\n'])).flatten)) =
      String.mk ((ps.map (fun p => lineBodyChars (p.1, p.1, p.2) ++ ['\n'])).flatten) := by
  have hts : ∀ t ∈ ps.map (fun p => (p.1, p.1, p.2)),
      TokChars t.1 ∧ TokChars t.2.1 ∧ TokChars t.2.2 := by
    intro t ht
    rcases List.mem_map.mp ht with ⟨p, hp, rfl⟩
    exact ⟨(h p hp).1, (h p hp).1, (h p hp).2⟩
  have hfold := identity_fold_render (ps.map (fun p => (p.1, p.1, p.2))) hts
  rw [List.map_map, List.map_map] at hfold
  have hfold2 : (rustLines ((ps.map
      (fun p => lineBodyChars (p.1, p.1, p.2) ++ ['\n'])).flatten)).foldl identityStep [] =
      (ps.map (fun p => lineBodyChars (p.1, p.1, p.2) ++ ['\n'])).flatten := hfold
  have hRne : ((ps.map (fun p => lineBodyChars (p.1, p.1, p.2) ++ ['\n'])).flatten).isEmpty
      = false := by
    cases ps with
    | nil => exact absurd rfl hne
    | cons p ps2 => simp
  unfold make_identity_map
  rw [show (String.mk ((ps.map (fun p => lineBodyChars (p.1, p.1, p.2) ++ ['\n'])).flatten)).data
      = (ps.map (fun p => lineBodyChars (p.1, p.1, p.2) ++ ['\n'])).flatten from rfl]
  rw [hfold2]
  simp only [hRne, Bool.false_eq_true, if_false]

/-- Claim C9: the identity-map derivation is idempotent on every input string,
including when the first application produces the default `"0 0 1\n"`. -/
theorem make_identity_map_idempotent (s : String) :
    make_identity_map (make_identity_map s) = make_identity_map s := by
  by_cases hR : ((rustLines s.data).foldl identityStep []).isEmpty = true
  · have h1 : make_identity_map s = "0 0 1\n" := by
      unfold make_identity_map
      simp only [hR, if_true]
    rw [h1]
    decide
  · have h1 : make_identity_map s = String.mk ((rustLines s.data).foldl identityStep []) := by
      unfold make_identity_map
      simp only [hR, Bool.false_eq_true, if_false]
    have hjoin : (rustLines s.data).foldl identityStep [] =
        (((rustLines s.data).filterMap lineParsePair).map
          (fun p => lineBodyChars (p.1, p.1, p.2) ++ ['\n'])).flatten := by
      rw [foldl_identityStep_join, flatten_lineOut_filterMap]
    have htoks : ∀ p ∈ (rustLines s.data).filterMap lineParsePair,
        TokChars p.1 ∧ TokChars p.2 := by
      intro p hp
      rcases List.mem_filterMap.mp hp with ⟨line, hline, hsome⟩
      exact lineParsePair_tokens line p hsome
    have hfoldne : (rustLines s.data).foldl identityStep [] ≠ [] := by
      intro h2
      rw [h2] at hR
      exact hR rfl
    have hpsne : (rustLines s.data).filterMap lineParsePair ≠ [] := by
      intro h2
      rw [hjoin, h2] at hfoldne
      simp at hfoldne
    rw [h1, hjoin]
    exact make_identity_map_of_mk_flatten ((rustLines s.data).filterMap lineParsePair)
      htoks hpsne

end RugixIsolator
